import Mathlib

set_option maxHeartbeats 1600000

/-!
Shallow embedding of the goinapp iOS receipt-validation library
(package `ios` and its `env` subpackage), together with proofs about
the status-code taxonomy, the purchase-record lifecycle predicates,
the ordering of purchase records, the environment selector and the
`ValidateAuto` retry policy.

Conventions of the embedding:
  * Go `int`/`int64` become `Int` (no arithmetic in the embedded code
    can overflow at the values involved).
  * Go `time.Time` values are instants, modelled as `Int` nanoseconds
    since the Unix epoch; `time.Time.Before` is `<` on those integers.
    `time.Now()` becomes an explicit `now` parameter.
  * Go `error` values returned by the embedded functions become
    `Option` values (`none` is Go's `nil` error); the distinct package
    level `Err...` sentinel errors of the status taxonomy become the
    constructors of the inductive type `StatusErr`.
  * The HTTP transport of `Validator.Validate` is I/O, so `ValidateAuto`
    is embedded as a function of an oracle mapping the resolved endpoint
    URL of each attempt to that attempt's outcome (a decoded response, or
    a Go error rendered as its message string).
-/

namespace GoInApp

/-- The sentinel error values of the `ios` package (`ErrMalformedJSON` …
`ErrUnknown` in the validator source). Each Go `errors.New` value is a
distinct constructor; the Go `nil` error is `Option.none` at use sites. -/
inductive StatusErr where
  | malformedJSON
  | malformedReceiptData
  | notAuthenticated
  | unauthorizedReceipt
  | incorrectSecret
  | serverNotAvailable
  | subscriptionExpired
  | sandboxOnProduction
  | productionOnSandbox
  | internalDataAccess
  | unknown
deriving DecidableEq, Repr

/-- SubscriptionStatus enumeration (`Trial`, `Paid`, `Expired`, `Pending`,
`Canceled` in the source). -/
inductive SubscriptionStatus where
  | trial
  | paid
  | expired
  | pending
  | canceled
deriving DecidableEq, Repr

/-- The `InApp` purchase record. Only the fields that some embedded
method or comparator reads are carried (`ProductID` is kept as an
identity field); the remaining wire-format fields (transaction ids,
formatted date strings, intro-offer flag, …) are never read by the
embedded logic and are omitted. String-typed wire booleans and
tri-states (`IsInBillingRetryPeriod`, `AutoRenewStatus`,
`CancellationReason`) stay strings, exactly as in the source;
`IsTrialPeriod` is a Go `bool`. The `...DateMS` fields are epoch
milliseconds (`int64` decoded with the `,string` option). -/
structure InApp where
  ProductID : String
  PurchaseDateMS : Int
  OriginalPurchaseDateMS : Int
  ExpiresDateMS : Int
  IsInBillingRetryPeriod : String
  IsTrialPeriod : Bool
  CancellationDateMS : Int
  CancellationReason : String
  AutoRenewStatus : String
deriving DecidableEq, Repr

/-- InApps is the slice type `[]InApp`. -/
abbrev InApps := List InApp

/-- convertToTime (src/ios/utils.go): `time.Unix(0, timeMS*int64(time.Millisecond))`,
i.e. the instant `timeMS * 1e6` nanoseconds after the epoch. -/
def convertToTime (timeMS : Int) : Int :=
  timeMS * 1000000

/-- Expired (part_002, lines 201-207): true when the expiration instant
`convertToTime(ExpiresDateMS)` is strictly before the current time. -/
def InApp.Expired (i : InApp) (now : Int) : Bool :=
  if convertToTime i.ExpiresDateMS < now then true else false

/-- Trial (part_002, lines 210-212): the `IsTrialPeriod` flag. -/
def InApp.Trial (i : InApp) : Bool :=
  i.IsTrialPeriod

/-- Pending (part_002, lines 231-241): inside the non-empty guard the Go
switch returns false for "0" and true for "1"; any other value falls out
of the switch to the final `return false`. -/
def InApp.Pending (i : InApp) : Bool :=
  if i.IsInBillingRetryPeriod ≠ "" then
    if i.IsInBillingRetryPeriod = "0" then false
    else if i.IsInBillingRetryPeriod = "1" then true
    else false
  else false

/-- Canceled (part_002, lines 244-260). The Go switch inside the
`AutoRenewStatus != ""` guard returns true for "0" and false for "1";
for every other non-empty value control falls through the switch and the
guard to the `CancellationReason` and `CancellationDateMS` checks, which
is also the path taken when `AutoRenewStatus` is empty. -/
def InApp.Canceled (i : InApp) : Bool :=
  if i.AutoRenewStatus = "0" then true
  else if i.AutoRenewStatus = "1" then false
  else if i.CancellationReason ≠ "" then true
  else if i.CancellationDateMS > 0 then true
  else false

/-- Status (part_002, lines 215-228): the first matching case of the Go
switch wins, in the order Canceled, Expired, Pending, Trial, Paid. -/
def InApp.Status (i : InApp) (now : Int) : SubscriptionStatus :=
  if i.Canceled then .canceled
  else if i.Expired now then .expired
  else if i.Pending then .pending
  else if i.Trial then .trial
  else .paid

/-- SortType enumeration of src/ios/sort.go. -/
inductive SortType where
  | byPurchaseDate
  | byOriginalPurchaseDate
deriving DecidableEq, Repr

/-- Less of the `byPurchaseDate` comparator (src/ios/sort.go, lines 91-95):
`convertToTime(b[i].PurchaseDateMS).Before(convertToTime(b[j].PurchaseDateMS))`. -/
def byPurchaseDate.Less (a b : InApp) : Bool :=
  if convertToTime a.PurchaseDateMS < convertToTime b.PurchaseDateMS then true else false

/-- Less of the `byOriginalPurchaseDate` comparator (src/ios/sort.go,
lines 102-106): the source reads `PurchaseDateMS` of both operands — not
`OriginalPurchaseDateMS` — so this comparator keys on the purchase
timestamp. The embedding reproduces that faithfully. -/
def byOriginalPurchaseDate.Less (a b : InApp) : Bool :=
  if convertToTime a.PurchaseDateMS < convertToTime b.PurchaseDateMS then true else false

/-- Go's `sort.Sort` is specified by: the result is a permutation of the
input that is non-decreasing with respect to `Less`, i.e. ordered by the
non-strict relation `¬ Less b a`. The embedding realises that contract
with `List.mergeSort` under this induced `le`; with a strict total `Less`
on distinct keys the sorted permutation is unique, so any compliant
`sort.Sort` implementation produces the same list. -/
def sortLe (less : InApp → InApp → Bool) (a b : InApp) : Bool :=
  !(less b a)

/-- Sorted (src/ios/sort.go, lines 76-84): dispatches `sort.Sort` on the
comparator selected by the `SortType` and returns the sorted slice. -/
def InApps.Sorted (i : InApps) (st : SortType) : InApps :=
  match st with
  | .byPurchaseDate => i.mergeSort (sortLe byPurchaseDate.Less)
  | .byOriginalPurchaseDate => i.mergeSort (sortLe byOriginalPurchaseDate.Less)

/-- LatestInApp (part_002, lines 188-193): nil for an empty slice,
otherwise the element at index 0 of `Sorted(ByOriginalPurchaseDate)`.
The Go `&sorted[0]` indexing is the head of the sorted list, which the
embedding reads through `head?`. -/
def InApps.LatestInApp (i : InApps) : Option InApp :=
  if i.length ≤ 0 then none
  else (InApps.Sorted i .byOriginalPurchaseDate).head?

end GoInApp

namespace GoInApp.env

/-- sandboxURL constant of the `env` package (src/ios/env/env.go). -/
def sandboxURL : String := "https://sandbox.itunes.apple.com/verifyReceipt"

/-- productionURL constant of the `env` package (src/ios/env/env.go). -/
def productionURL : String := "https://buy.itunes.apple.com/verifyReceipt"

/-- URL of the `productionEnv` variant (src/ios/env/env.go): the
production constant, whatever the receiver's state. -/
def productionEnv.URL : String := productionURL

/-- URL of the `sandboxEnv` variant (src/ios/env/env.go): the sandbox
constant, whatever the receiver's state. -/
def sandboxEnv.URL : String := sandboxURL

/-- The `endpointEnv` custom variant (src/ios/env/env.go): carries a
caller-supplied URL string. -/
structure endpointEnv where
  url : String
deriving DecidableEq, Repr

/-- URL of `endpointEnv`: returns the stored caller-supplied URL. -/
def endpointEnv.URL (e : endpointEnv) : String := e.url

/-- Endpoint constructor of the `env` package: wraps the given URL. -/
def Endpoint (url : String) : endpointEnv := ⟨url⟩

end GoInApp.env

namespace GoInApp

/-- prodURL constant of the `ios` package (part_003, lines 8-11). The
source assigns it the sandbox host — the two constant values are swapped
relative to their names; the embedding reproduces the source verbatim. -/
def prodURL : String := "https://sandbox.itunes.apple.com/verifyReceipt"

/-- sandURL constant of the `ios` package (part_003, lines 8-11): the
source assigns it the production host (see `prodURL`). -/
def sandURL : String := "https://buy.itunes.apple.com/verifyReceipt"

/-- AppleEnv enumeration (part_003): `Production` and `Sandbox`. The Go
type is an `int` whose out-of-range values only matter to `String()`,
which no claim touches, so the two named constants are the carrier. -/
inductive AppleEnv where
  | production
  | sandbox
deriving DecidableEq, Repr

/-- Endpoint (part_003, lines 33-39): the map from the environment to its
URL constant, `Production → prodURL`, `Sandbox → sandURL`. -/
def AppleEnv.Endpoint : AppleEnv → String
  | .production => prodURL
  | .sandbox => sandURL

/-- ValidationResponse (part_001). The fields no embedded method reads
(`Receipt`, `PendingRenewalInfo`) are omitted; `Environment` uses the
`AppleEnv` enumeration as in the source. -/
structure ValidationResponse where
  Status : Int
  Environment : AppleEnv
  LatestReceipt : String
  LatestReceiptInfo : InApps
  LatestExpiredReceiptInfo : InApps
  IsRetryable : Bool
deriving DecidableEq, Repr

/-- IsValid (part_001, lines 194-201): the Go switch on `Status` returns
true for 0 and false otherwise. -/
def ValidationResponse.IsValid (r : ValidationResponse) : Bool :=
  if r.Status = 0 then true else false

/-- IsRenewable (part_001, lines 186-191): true when `LatestReceipt` is a
non-empty string and `LatestReceiptInfo` has positive length. -/
def ValidationResponse.IsRenewable (r : ValidationResponse) : Bool :=
  if r.LatestReceipt ≠ "" ∧ r.LatestReceiptInfo.length > 0 then true else false

/-- The map plus range check plus fallback of StatusError (part_001,
lines 204-227), as a function of the `Status` integer: a hit in the Go
literal map (0 maps to the nil error) is returned; otherwise statuses in
[21100, 21199] give `ErrInternalDataAccess` and everything else gives
`ErrUnknown`. -/
def statusError (status : Int) : Option StatusErr :=
  if status = 0 then none
  else if status = 21000 then some .malformedJSON
  else if status = 21002 then some .malformedReceiptData
  else if status = 21003 then some .notAuthenticated
  else if status = 21004 then some .incorrectSecret
  else if status = 21005 then some .serverNotAvailable
  else if status = 21006 then some .subscriptionExpired
  else if status = 21007 then some .sandboxOnProduction
  else if status = 21008 then some .productionOnSandbox
  else if status = 21010 then some .unauthorizedReceipt
  else if 21100 ≤ status ∧ status ≤ 21199 then some .internalDataAccess
  else some .unknown

/-- StatusError (part_001): looks up the response's `Status` in the map
described by `statusError`. -/
def ValidationResponse.StatusError (r : ValidationResponse) : Option StatusErr :=
  statusError r.Status

/-- The switch of ValidationStatus (src/ios/validator.go, lines 139-166),
as a function of the `Status` integer. This variant of the taxonomy has
no case for 21006 — its cases jump from 21005 to 21007 — so 21006 falls
to the default branch and, being outside [21100, 21199], yields
`ErrUnknown`. -/
def validationStatus (status : Int) : Option StatusErr :=
  if status = 0 then none
  else if status = 21000 then some .malformedJSON
  else if status = 21002 then some .malformedReceiptData
  else if status = 21003 then some .notAuthenticated
  else if status = 21004 then some .incorrectSecret
  else if status = 21005 then some .serverNotAvailable
  else if status = 21007 then some .sandboxOnProduction
  else if status = 21008 then some .productionOnSandbox
  else if status = 21010 then some .unauthorizedReceipt
  else if 21100 ≤ status ∧ status ≤ 21199 then some .internalDataAccess
  else some .unknown

/-- ValidationStatus (src/ios/validator.go): applies the switch of
`validationStatus` to the response's `Status`. -/
def ValidationResponse.ValidationStatus (r : ValidationResponse) : Option StatusErr :=
  validationStatus r.Status

/-- The message of part_001 line 98 and line 103:
`fmt.Errorf("validation with auto env failed: %v", err)`. Formatting a
nil Go error with `%v` prints `<nil>`. -/
def autoFailMsg (e : Option String) : String :=
  "validation with auto env failed: " ++ (match e with | some s => s | none => "<nil>")

/-- ValidateAuto (part_001, lines 95-108) over a `validate` oracle that
maps the endpoint URL each `v.Validate(ctx, receipt, env)` call resolves
to — `Production.Endpoint()` first, `Sandbox.Endpoint()` on the retry —
to that call's outcome. Returned is Go's `(resp, err)` pair. In the retry
branch the source wraps `err` — the first call's error, which is nil on
that path — not `retryErr`, and the embedding reproduces that. -/
def Validator.ValidateAuto (validate : String → Except String ValidationResponse) :
    Option ValidationResponse × Option String :=
  match validate (AppleEnv.Endpoint .production) with
  | .error e => (none, some (autoFailMsg (some e)))
  | .ok resp =>
    if resp.IsValid = false ∧ resp.StatusError = some .productionOnSandbox then
      match validate (AppleEnv.Endpoint .sandbox) with
      | .error _ => (none, some (autoFailMsg none))
      | .ok retryResp => (some retryResp, none)
    else (some resp, none)

/-- The endpoint URLs `ValidateAuto` hands to `v.Validate`, in call
order: the production endpoint always, then the sandbox endpoint exactly
when the first call decoded a response whose status error is
`ErrProductionOnSandbox`. -/
def Validator.ValidateAutoCalls (validate : String → Except String ValidationResponse) :
    List String :=
  match validate (AppleEnv.Endpoint .production) with
  | .error _ => [AppleEnv.Endpoint .production]
  | .ok resp =>
    if resp.IsValid = false ∧ resp.StatusError = some .productionOnSandbox then
      [AppleEnv.Endpoint .production, AppleEnv.Endpoint .sandbox]
    else [AppleEnv.Endpoint .production]

end GoInApp

namespace GoInApp

/-! ## Helper lemmas (shared, not claimed) -/

/-- The only status the part_001 taxonomy maps to `ErrProductionOnSandbox`
is 21008. -/
theorem statusError_eq_prodOnSandbox_iff (s : Int) :
    statusError s = some .productionOnSandbox ↔ s = 21008 := by
  unfold statusError
  split_ifs <;>
    constructor <;> intro h <;>
      first
        | rfl
        | omega
        | exact absurd h (by simp)

/-- The retry condition of `ValidateAuto` holds exactly for status 21008. -/
theorem validateAuto_cond_iff (r : ValidationResponse) :
    (r.IsValid = false ∧ r.StatusError = some .productionOnSandbox) ↔ r.Status = 21008 := by
  unfold ValidationResponse.IsValid ValidationResponse.StatusError
  rw [statusError_eq_prodOnSandbox_iff]
  constructor
  · exact fun h => h.2
  · intro h
    refine ⟨?_, h⟩
    simp [h]

/-! ## C5 — environment selector endpoints -/

/-- C5: the `env` package resolves production to the production host,
sandbox to the sandbox host and a custom endpoint to the caller's URL
unchanged; the `AppleEnv` selector of part_003, however, resolves
`Production` to the sandbox host and `Sandbox` to the production host,
because its `prodURL`/`sandURL` constants hold swapped values. -/
theorem environment_endpoints :
    env.productionEnv.URL = "https://buy.itunes.apple.com/verifyReceipt" ∧
    env.sandboxEnv.URL = "https://sandbox.itunes.apple.com/verifyReceipt" ∧
    (∀ url : String, (env.Endpoint url).URL = url) ∧
    AppleEnv.Endpoint .production = "https://sandbox.itunes.apple.com/verifyReceipt" ∧
    AppleEnv.Endpoint .sandbox = "https://buy.itunes.apple.com/verifyReceipt" :=
  ⟨rfl, rfl, fun _ => rfl, rfl, rfl⟩

/-! ## C8 — IsRenewable -/

/-- C8: `IsRenewable` is true exactly when the latest-receipt blob is a
non-empty string and the latest renewal-info list is non-empty. -/
theorem isRenewable_iff (r : ValidationResponse) :
    r.IsRenewable = true ↔ (r.LatestReceipt ≠ "" ∧ r.LatestReceiptInfo ≠ []) := by
  unfold ValidationResponse.IsRenewable
  split_ifs with h
  · simpa [List.length_pos] using h
  · simp only [List.length_pos] at h
    simpa using h

/-! ## C3 — Canceled predicate -/

/-- A record with auto-renew status "1" and both cancellation markers
set: the claimed disjunction holds but `Canceled` returns false. -/
def canceledOnAutoRenew : InApp :=
  { ProductID := "sub", PurchaseDateMS := 0, OriginalPurchaseDateMS := 0,
    ExpiresDateMS := 0, IsInBillingRetryPeriod := "", IsTrialPeriod := false,
    CancellationDateMS := 100, CancellationReason := "1", AutoRenewStatus := "1" }

/-- C3 counterexample: for the record with auto-renew "1", a cancellation
reason and a positive cancellation timestamp, `Canceled` is false, so the
claimed equivalence with the plain three-way disjunction fails. -/
theorem canceled_claim_counterexample :
    ¬ (canceledOnAutoRenew.Canceled = true ↔
        (canceledOnAutoRenew.AutoRenewStatus = "0" ∨
         canceledOnAutoRenew.CancellationReason ≠ "" ∨
         canceledOnAutoRenew.CancellationDateMS > 0)) := by
  decide

/-- C3 amended: `Canceled` is true iff auto-renew status is exactly "0",
or auto-renew status is neither "0" nor "1" (including absent) and a
cancellation reason is present or the cancellation timestamp is positive;
auto-renew "1" short-circuits to not-canceled before the cancellation
markers are consulted. -/
theorem canceled_iff_amended (i : InApp) :
    i.Canceled = true ↔
      (i.AutoRenewStatus = "0" ∨
        (i.AutoRenewStatus ≠ "0" ∧ i.AutoRenewStatus ≠ "1" ∧
          (i.CancellationReason ≠ "" ∨ 0 < i.CancellationDateMS))) := by
  unfold InApp.Canceled
  split_ifs with h1 h2 h3 h4 <;> simp_all

/-! ## C9 — LatestInApp on the empty sequence, totality -/

/-- C9: on the empty sequence `LatestInApp` returns the absence signal
`none`, and on every non-empty sequence it returns some record — the
Go `&sorted[0]` indexing never reaches an empty slice, so the accessor
is total and cannot panic. -/
theorem latestInApp_total :
    (InApps.LatestInApp ([] : InApps) = none) ∧
    (∀ l : InApps, l ≠ [] → ∃ r, InApps.LatestInApp l = some r) := by
  constructor
  · rfl
  · intro l h
    unfold InApps.LatestInApp
    rw [if_neg (by simpa [List.length_eq_zero] using h)]
    unfold InApps.Sorted
    have hperm := List.mergeSort_perm l (sortLe byOriginalPurchaseDate.Less)
    rcases hsort : l.mergeSort (sortLe byOriginalPurchaseDate.Less) with _ | ⟨a, t⟩
    · rw [hsort] at hperm
      exact absurd (hperm.nil_eq.symm) h
    · exact ⟨a, rfl⟩

end GoInApp

namespace GoInApp

/-! ## C1 — status-code taxonomy -/

/-- C1: the part_001 status-error accessor is a total mapping: nil for 0,
the named sentinel for each discrete code (21000, 21002, 21003, 21004,
21005, 21006, 21007, 21008, 21010), `ErrInternalDataAccess` on all of
[21100, 21199], `ErrUnknown` on every other integer — and the method
reads exactly the response's `Status`. The `ValidationStatus` variant of
src/ios/validator.go, however, has no 21006 case, so there 21006 falls to
the unknown condition instead of the subscription-expired one. -/
theorem statusError_total_mapping :
    (∀ r : ValidationResponse, r.StatusError = statusError r.Status) ∧
    statusError 0 = none ∧
    statusError 21000 = some .malformedJSON ∧
    statusError 21002 = some .malformedReceiptData ∧
    statusError 21003 = some .notAuthenticated ∧
    statusError 21004 = some .incorrectSecret ∧
    statusError 21005 = some .serverNotAvailable ∧
    statusError 21006 = some .subscriptionExpired ∧
    statusError 21007 = some .sandboxOnProduction ∧
    statusError 21008 = some .productionOnSandbox ∧
    statusError 21010 = some .unauthorizedReceipt ∧
    (∀ s : Int, 21100 ≤ s → s ≤ 21199 → statusError s = some .internalDataAccess) ∧
    (∀ s : Int, s ≠ 0 → s ≠ 21000 → s ≠ 21002 → s ≠ 21003 → s ≠ 21004 → s ≠ 21005 →
      s ≠ 21006 → s ≠ 21007 → s ≠ 21008 → s ≠ 21010 → ¬(21100 ≤ s ∧ s ≤ 21199) →
      statusError s = some .unknown) ∧
    (∀ r : ValidationResponse, r.ValidationStatus = validationStatus r.Status) ∧
    validationStatus 21006 = some .unknown := by
  refine ⟨fun _ => rfl, by decide, by decide, by decide, by decide, by decide, by decide,
    by decide, by decide, by decide, by decide, ?_, ?_, fun _ => rfl, by decide⟩
  · intro s h1 h2
    unfold statusError
    split_ifs <;> first | rfl | omega
  · intro s h0 h1 h2 h3 h4 h5 h6 h7 h8 h9 h10
    unfold statusError
    split_ifs <;> first | rfl | omega

/-! ## C4 — one-time purchase record status -/

/-- A one-time purchase record: purchase timestamps set, every renewal
field zero or empty. -/
def oneTimeInApp : InApp :=
  { ProductID := "coins", PurchaseDateMS := 1527811200000,
    OriginalPurchaseDateMS := 1527811200000, ExpiresDateMS := 0,
    IsInBillingRetryPeriod := "", IsTrialPeriod := false,
    CancellationDateMS := 0, CancellationReason := "", AutoRenewStatus := "" }

/-- C4 counterexample: at a current time of 2018-06-01 (in nanoseconds),
the one-time record's status is Expired, not the claimed Paid — the
absent expiration timestamp decodes as 0, whose converted instant (the
epoch) is before any positive current time. -/
theorem status_oneTime_counterexample :
    oneTimeInApp.Status 1527811200000000000 = .expired ∧
      oneTimeInApp.Status 1527811200000000000 ≠ .paid := by
  decide

/-- C4 amended: a record with no renewal fields set evaluates Canceled
and Pending as false, but Expired as true at every current time after
the epoch, because the zero expiration timestamp converts to the epoch
instant; Status therefore returns Expired (never reaching the trial
check), not Paid. -/
theorem status_oneTime_amended (i : InApp) (now : Int)
    (hexp : i.ExpiresDateMS = 0) (hcd : i.CancellationDateMS = 0)
    (hcr : i.CancellationReason = "") (har : i.AutoRenewStatus = "")
    (hbr : i.IsInBillingRetryPeriod = "") (hnow : 0 < now) :
    i.Canceled = false ∧ i.Pending = false ∧ i.Expired now = true ∧
      i.Status now = .expired := by
  have hc : i.Canceled = false := by
    simp [InApp.Canceled, har, hcr, hcd]
  have hp : i.Pending = false := by
    simp [InApp.Pending, hbr]
  have he : i.Expired now = true := by
    simp only [InApp.Expired, convertToTime, hexp]
    rw [if_pos (by omega)]
  refine ⟨hc, hp, he, ?_⟩
  simp [InApp.Status, hc, he]

/-- C4 witness: the amended statement instantiated at the concrete
one-time record and the 2018-06-01 instant. -/
theorem status_oneTime_witness :
    oneTimeInApp.Canceled = false ∧ oneTimeInApp.Pending = false ∧
      oneTimeInApp.Expired 1527811200000000000 = true ∧
      oneTimeInApp.Status 1527811200000000000 = .expired :=
  status_oneTime_amended oneTimeInApp 1527811200000000000 rfl rfl rfl rfl rfl (by decide)

/-! ## C7 — the ByOriginalPurchaseDate comparison key -/

/-- A record purchased first whose original purchase is later. -/
def origR1 : InApp :=
  { ProductID := "a", PurchaseDateMS := 1, OriginalPurchaseDateMS := 10,
    ExpiresDateMS := 0, IsInBillingRetryPeriod := "", IsTrialPeriod := false,
    CancellationDateMS := 0, CancellationReason := "", AutoRenewStatus := "" }

/-- A record purchased second whose original purchase is earlier. -/
def origR2 : InApp :=
  { ProductID := "b", PurchaseDateMS := 2, OriginalPurchaseDateMS := 5,
    ExpiresDateMS := 0, IsInBillingRetryPeriod := "", IsTrialPeriod := false,
    CancellationDateMS := 0, CancellationReason := "", AutoRenewStatus := "" }

/-- C7: the `byOriginalPurchaseDate` comparator keys on the purchase
timestamp, not the original-purchase timestamp, and consequently
`Sorted(ByOriginalPurchaseDate)` can return a list whose
original-purchase timestamps are strictly decreasing: on the two records
above it orders by purchase date (1 then 2) and leaves the original
dates as 10 then 5. -/
theorem byOriginalPurchaseDate_key_bug :
    (∀ a b : InApp,
       byOriginalPurchaseDate.Less a b = decide (a.PurchaseDateMS < b.PurchaseDateMS)) ∧
    origR2.OriginalPurchaseDateMS < origR1.OriginalPurchaseDateMS ∧
    InApps.Sorted [origR2, origR1] .byOriginalPurchaseDate = [origR1, origR2] := by
  refine ⟨?_, by decide, ?_⟩
  · intro a b
    unfold byOriginalPurchaseDate.Less convertToTime
    rcases lt_or_ge a.PurchaseDateMS b.PurchaseDateMS with h | h
    · rw [if_pos (by omega)]
      exact (decide_eq_true h).symm
    · rw [if_neg (by omega)]
      exact (decide_eq_false (by omega)).symm
  · simp [InApps.Sorted, List.mergeSort, List.merge, sortLe,
      byOriginalPurchaseDate.Less, convertToTime, origR1, origR2]

/-! ## C10 — failing sandbox retry wraps the nil first error -/

/-- C10: when the production call decodes a response with status 21008
and the sandbox retry fails, `ValidateAuto` returns a nil response with a
non-nil error — and that error formats `err`, the first call's error
value, which is nil on this path, so the message wraps `<nil>` rather
than the retry call's error. -/
theorem validateAuto_retry_error_wraps_nil
    (validate : String → Except String ValidationResponse)
    (resp : ValidationResponse) (e : String)
    (h1 : validate (AppleEnv.Endpoint .production) = .ok resp)
    (h2 : resp.Status = 21008)
    (h3 : validate (AppleEnv.Endpoint .sandbox) = .error e) :
    Validator.ValidateAuto validate = (none, some (autoFailMsg none)) := by
  have hc := (validateAuto_cond_iff resp).mpr h2
  simp [Validator.ValidateAuto, h1, h3, hc.1, hc.2]

/-- A response whose only distinguishing feature is status 21008. -/
def respProdOnSandbox : ValidationResponse :=
  { Status := 21008, Environment := .production, LatestReceipt := "",
    LatestReceiptInfo := [], LatestExpiredReceiptInfo := [], IsRetryable := false }

/-- An oracle whose production call decodes the 21008 response and whose
sandbox retry fails at the transport. -/
def oracleRetryFails : String → Except String ValidationResponse :=
  fun url =>
    if url = AppleEnv.Endpoint .production then .ok respProdOnSandbox
    else .error "connection refused"

/-- C10 witness: the retry-failure behaviour at the concrete oracle. -/
theorem validateAuto_retry_error_witness :
    Validator.ValidateAuto oracleRetryFails = (none, some (autoFailMsg none)) :=
  validateAuto_retry_error_wraps_nil oracleRetryFails respProdOnSandbox "connection refused"
    rfl rfl rfl

end GoInApp

namespace GoInApp

/-! ## C2 — ValidateAuto retry policy -/

/-- C2: a transport failure on the first call short-circuits with no
sandbox attempt; a decoded response with status 21008 triggers exactly
one retry whose outcome is returned verbatim; every other decoded
response is returned unchanged after the single production call. The
URL the retry is issued against, however, is `Sandbox.Endpoint()`,
which the swapped constants of part_003 resolve to the production host
`https://buy.itunes.apple.com/verifyReceipt` rather than to the sandbox
endpoint URL. -/
theorem validateAuto_retry_policy :
    (∀ (validate : String → Except String ValidationResponse) (e : String),
       validate (AppleEnv.Endpoint .production) = .error e →
       Validator.ValidateAuto validate = (none, some (autoFailMsg (some e))) ∧
       Validator.ValidateAutoCalls validate = [AppleEnv.Endpoint .production]) ∧
    (∀ (validate : String → Except String ValidationResponse)
       (resp retryResp : ValidationResponse),
       validate (AppleEnv.Endpoint .production) = .ok resp →
       resp.Status = 21008 →
       validate (AppleEnv.Endpoint .sandbox) = .ok retryResp →
       Validator.ValidateAuto validate = (some retryResp, none) ∧
       Validator.ValidateAutoCalls validate =
         [AppleEnv.Endpoint .production, AppleEnv.Endpoint .sandbox]) ∧
    (∀ (validate : String → Except String ValidationResponse)
       (resp : ValidationResponse),
       validate (AppleEnv.Endpoint .production) = .ok resp →
       resp.Status ≠ 21008 →
       Validator.ValidateAuto validate = (some resp, none) ∧
       Validator.ValidateAutoCalls validate = [AppleEnv.Endpoint .production]) ∧
    AppleEnv.Endpoint .sandbox = "https://buy.itunes.apple.com/verifyReceipt" := by
  refine ⟨?_, ?_, ?_, rfl⟩
  · intro validate e h
    exact ⟨by simp [Validator.ValidateAuto, h],
           by simp [Validator.ValidateAutoCalls, h]⟩
  · intro validate resp retryResp h1 h2 h3
    have hc := (validateAuto_cond_iff resp).mpr h2
    exact ⟨by simp [Validator.ValidateAuto, h1, h3, hc.1, hc.2],
           by simp [Validator.ValidateAutoCalls, h1, hc.1, hc.2]⟩
  · intro validate resp h1 h2
    have hnc : ¬(resp.IsValid = false ∧ resp.StatusError = some .productionOnSandbox) :=
      fun hcond => h2 ((validateAuto_cond_iff resp).mp hcond)
    exact ⟨by simp [Validator.ValidateAuto, h1, hnc],
           by simp [Validator.ValidateAutoCalls, h1, hnc]⟩

/-! ## C6 — ascending sort, the maximum, and LatestInApp -/

/-- The induced `sort.Sort` order of the purchase-date comparator is the
non-strict order on purchase timestamps. -/
theorem sortLe_byPurchaseDate_eq (a b : InApp) :
    sortLe byPurchaseDate.Less a b = true ↔ a.PurchaseDateMS ≤ b.PurchaseDateMS := by
  unfold sortLe byPurchaseDate.Less convertToTime
  rcases le_or_lt a.PurchaseDateMS b.PurchaseDateMS with h | h
  · rw [if_neg (by omega)]
    simpa using h
  · rw [if_pos (by omega)]
    simp
    omega

/-- Transitivity of the induced order. -/
theorem sortLe_byPurchaseDate_trans (a b c : InApp)
    (h1 : sortLe byPurchaseDate.Less a b) (h2 : sortLe byPurchaseDate.Less b c) :
    sortLe byPurchaseDate.Less a c :=
  (sortLe_byPurchaseDate_eq a c).mpr
    (le_trans ((sortLe_byPurchaseDate_eq a b).mp h1) ((sortLe_byPurchaseDate_eq b c).mp h2))

/-- Totality of the induced order. -/
theorem sortLe_byPurchaseDate_total (a b : InApp) :
    sortLe byPurchaseDate.Less a b || sortLe byPurchaseDate.Less b a := by
  rcases le_total a.PurchaseDateMS b.PurchaseDateMS with h | h
  · simp [(sortLe_byPurchaseDate_eq a b).mpr h]
  · simp [(sortLe_byPurchaseDate_eq b a).mpr h]

/-- In a list that is pairwise ordered by `R`, the last element is
`R`-above every other element. -/
theorem getLast?_max_of_pairwise {α : Type} {R : α → α → Prop} :
    ∀ (l : List α) (m : α), l.Pairwise R → l.getLast? = some m →
      ∀ x ∈ l, x = m ∨ R x m := by
  intro l
  induction l with
  | nil =>
    intro m _ hl
    simp at hl
  | cons a t ih =>
    intro m hp hl x hx
    rcases List.mem_cons.mp hx with rfl | hxt
    · rcases t with _ | ⟨b, t'⟩
      · left
        simpa using hl
      · right
        rw [List.getLast?_cons_cons] at hl
        have hm : m ∈ b :: t' := List.mem_of_mem_getLast? hl
        exact (List.pairwise_cons.mp hp).1 m hm
    · rcases t with _ | ⟨b, t'⟩
      · simp at hxt
      · rw [List.getLast?_cons_cons] at hl
        exact ih m (List.pairwise_cons.mp hp).2 hl x hxt

/-- The record with the earlier purchase timestamp. -/
def inAppEarly : InApp :=
  { ProductID := "first", PurchaseDateMS := 1, OriginalPurchaseDateMS := 1,
    ExpiresDateMS := 0, IsInBillingRetryPeriod := "", IsTrialPeriod := false,
    CancellationDateMS := 0, CancellationReason := "", AutoRenewStatus := "" }

/-- The record with the later purchase timestamp. -/
def inAppLate : InApp :=
  { ProductID := "second", PurchaseDateMS := 2, OriginalPurchaseDateMS := 2,
    ExpiresDateMS := 0, IsInBillingRetryPeriod := "", IsTrialPeriod := false,
    CancellationDateMS := 0, CancellationReason := "", AutoRenewStatus := "" }

/-- C6: `Sorted(ByPurchaseDate)` is a permutation of the input ordered
ascending by purchase timestamp, its last element exists for non-empty
input and carries the maximum purchase timestamp — but the "latest"
accessor `LatestInApp` returns index 0 of the ascending-sorted list, so
on two records with distinct purchase timestamps it returns the one with
the minimum timestamp, not the maximum. -/
theorem sorted_byPurchaseDate_last_is_max :
    (∀ l : InApps,
       (InApps.Sorted l .byPurchaseDate).Perm l ∧
       (InApps.Sorted l .byPurchaseDate).Pairwise
         (fun a b => a.PurchaseDateMS ≤ b.PurchaseDateMS)) ∧
    (∀ (l : InApps) (m : InApp),
       (InApps.Sorted l .byPurchaseDate).getLast? = some m →
       m ∈ l ∧ ∀ x ∈ l, x.PurchaseDateMS ≤ m.PurchaseDateMS) ∧
    (∀ l : InApps, l ≠ [] →
       ∃ m, (InApps.Sorted l .byPurchaseDate).getLast? = some m) ∧
    inAppEarly.PurchaseDateMS < inAppLate.PurchaseDateMS ∧
    InApps.LatestInApp [inAppEarly, inAppLate] = some inAppEarly := by
  have hpair : ∀ l : InApps,
      (InApps.Sorted l .byPurchaseDate).Pairwise
        (fun a b => a.PurchaseDateMS ≤ b.PurchaseDateMS) := by
    intro l
    exact (List.sorted_mergeSort sortLe_byPurchaseDate_trans sortLe_byPurchaseDate_total l).imp
      (fun h => (sortLe_byPurchaseDate_eq _ _).mp h)
  refine ⟨?_, ?_, ?_, by decide, ?_⟩
  · intro l
    exact ⟨List.mergeSort_perm l _, hpair l⟩
  · intro l m hl
    have hperm : (InApps.Sorted l .byPurchaseDate).Perm l := List.mergeSort_perm l _
    have hmem : m ∈ InApps.Sorted l .byPurchaseDate := List.mem_of_mem_getLast? hl
    refine ⟨hperm.mem_iff.mp hmem, ?_⟩
    intro x hx
    have hx' : x ∈ InApps.Sorted l .byPurchaseDate := hperm.mem_iff.mpr hx
    rcases getLast?_max_of_pairwise _ m (hpair l) hl x hx' with rfl | hle
    · exact le_refl _
    · exact hle
  · intro l h
    rcases hsort : InApps.Sorted l .byPurchaseDate with _ | ⟨a, t⟩
    · exfalso
      have hperm : (InApps.Sorted l .byPurchaseDate).Perm l := List.mergeSort_perm l _
      rw [hsort] at hperm
      exact h hperm.nil_eq.symm
    · exact Option.isSome_iff_exists.mp (List.getLast?_isSome.mpr (List.cons_ne_nil a t))
  · simp [InApps.LatestInApp, InApps.Sorted, List.mergeSort, List.merge, sortLe,
      byOriginalPurchaseDate.Less, convertToTime, inAppEarly, inAppLate]

end GoInApp
